import Mathlib

/-!
Verification of the citySim core engines against their specification.

The definitions below are a shallow embedding of the Python sources:
* `src/citysim/core/conversation_manager.py` (turn scheduler),
* `src/citysim/npc/relationships.py` (relationship matrix),
* `src/citysim/npc/npc_manager.py` and `src/citysim/npc/personality.py`
  (NPC state, interjection triggers, time advancement).

Python dictionaries are modelled as association lists (`List (key × value)`,
first match wins, insertion appends), Python `Optional` as `Option`, and the
float scores produced by relationship decay as rationals.
-/

/- The library marks the `Rat` field operations `@[irreducible]`, which stops
`decide` from evaluating concrete relationship scores; the kernel itself
reduces them fine, so restore the default reducibility for elaboration. -/
set_option allowUnsafeReducibility true in
attribute [semireducible] Rat.add Rat.sub Rat.mul Rat.inv Rat.neg

namespace CitySim

/-! ## Association-list model of Python dicts used by the scheduler -/

/-- Model of `d.get(k, 0)` on the Python dict `turns_this_round`. -/
def lookupCount (d : List (String × Nat)) (k : String) : Nat :=
  match d.find? (fun p => decide (p.1 = k)) with
  | some p => p.2
  | none => 0

/-- Model of the Python dict assignment `d[k] = v`: overwrite the first (in a
dict, only) entry with key `k`, or append a fresh one. -/
def setCount : List (String × Nat) → String → Nat → List (String × Nat)
  | [], k, v => [(k, v)]
  | p :: d, k, v => if p.1 = k then (k, v) :: d else p :: setCount d k v

/-- Model of `exit_requests[c] = True` (dict keyed by character, all values
`True`): record the character once. -/
def addRequest (l : List String) (c : String) : List String :=
  if c ∈ l then l else l ++ [c]

/-! ## Turn scheduler: `ConversationManager` from `conversation_manager.py` -/

/-- Embedding of the `Turn` dataclass. -/
structure Turn where
  speaker : String
  roundNumber : Nat
  content : Option String := none
  action : Option String := none
  tone : Option String := none
  target : Option String := none
deriving Repr, DecidableEq

/-- Embedding of `ConversationState` together with the manager-level fields
`characters`, `speaker_index` and `next_speaker_override` (the Python class
keeps them on the `ConversationManager` object next to its state). -/
structure ConvState where
  characters : List String
  currentRound : Nat := 1
  currentTurn : Nat := 0
  turnsTaken : List Turn := []
  exitRequests : List String := []
  conversationEnergy : String := "high"
  forcedExitRound : Nat := 8
  speakersThisRound : List String := []
  turnsThisRound : List (String × Nat) := []
  interjectionsThisRound : List String := []
  speakerIndex : Nat := 0
  nextSpeakerOverride : Option String := none
deriving Repr, DecidableEq

/-- State produced by `ConversationManager.__init__(characters)`. -/
def initConv (chars : List String) : ConvState := { characters := chars }

/-- Embedding of `get_next_speaker`: priority override first (consumed), else
sequential rotation `characters[speaker_index % len]` with the index bumped. -/
def get_next_speaker (s : ConvState) : String × ConvState :=
  match s.nextSpeakerOverride with
  | some sp => (sp, { s with nextSpeakerOverride := none })
  | none =>
      (s.characters.getD (s.speakerIndex % s.characters.length) "",
        { s with speakerIndex := s.speakerIndex + 1 })

/-- Embedding of `set_next_speaker_from_target`: only a non-empty target that
names another roster member is considered, and a target already at the 2-turn
cap this round is dropped without touching the override. -/
def set_next_speaker_from_target (s : ConvState) (targetName currentSpeaker : String) :
    ConvState :=
  if targetName ≠ "" ∧ targetName ∈ s.characters ∧ targetName ≠ currentSpeaker then
    if 2 ≤ lookupCount s.turnsThisRound targetName then s
    else { s with nextSpeakerOverride := some targetName }
  else s

/-- Embedding of `can_exit_conversation`: rounds 4 to 7. -/
def can_exit_conversation (s : ConvState) : Bool :=
  decide (4 ≤ s.currentRound ∧ s.currentRound ≤ 7)

/-- Embedding of `must_exit_conversation`: at or past the forced-exit round. -/
def must_exit_conversation (s : ConvState) : Bool :=
  decide (s.forcedExitRound ≤ s.currentRound)

/-- Embedding of `should_advance_round`: every character at the 2-turn cap, or
`set(speakers_this_round) == set(characters)`. -/
def should_advance_round (s : ConvState) : Bool :=
  (s.characters.all fun c => decide (2 ≤ lookupCount s.turnsThisRound c)) ||
    ((s.speakersThisRound.all fun c => decide (c ∈ s.characters)) &&
      (s.characters.all fun c => decide (c ∈ s.speakersThisRound)))

/-- Energy recomputation at the end of `start_new_round`. -/
def energyFor (round : Nat) : String :=
  if round ≤ 3 then "high" else if round ≤ 6 then "medium" else "low"

/-- Embedding of `start_new_round`: bump the round, clear the per-round
trackers, recompute the energy. -/
def start_new_round (s : ConvState) : ConvState :=
  { s with
    currentRound := s.currentRound + 1
    speakersThisRound := []
    turnsThisRound := []
    interjectionsThisRound := []
    conversationEnergy := energyFor (s.currentRound + 1) }

/-- Embedding of `add_turn`: record the turn, bump counters, track per-round
participation, handle targeting, then advance the round if complete. -/
def add_turn (s : ConvState) (speaker content : String)
    (action tone target : Option String) : ConvState :=
  let turn : Turn :=
    { speaker := speaker, roundNumber := s.currentRound, content := some content,
      action := action, tone := tone, target := target }
  let s1 := { s with turnsTaken := s.turnsTaken ++ [turn], currentTurn := s.currentTurn + 1 }
  let s2 :=
    if speaker ∈ s1.speakersThisRound then s1
    else { s1 with speakersThisRound := s1.speakersThisRound ++ [speaker] }
  let s3 := { s2 with
    turnsThisRound := setCount s2.turnsThisRound speaker
      (lookupCount s2.turnsThisRound speaker + 1) }
  let s4 :=
    match target with
    | some t => if t ≠ "" then set_next_speaker_from_target s3 t speaker else s3
    | none => s3
  if should_advance_round s4 then start_new_round s4 else s4

/-- Embedding of `request_exit`: record the request inside the eligible window,
report failure outside it. -/
def request_exit (s : ConvState) (character : String) : ConvState × Bool :=
  if can_exit_conversation s then
    ({ s with exitRequests := addRequest s.exitRequests character }, true)
  else (s, false)

/-- Embedding of `should_end_conversation`. -/
def should_end_conversation (s : ConvState) : Bool × String :=
  if must_exit_conversation s then (true, "maximum_rounds_reached")
  else if can_exit_conversation s &&
      decide (s.characters.length / 2 + 1 ≤ s.exitRequests.length) then
    (true, "majority_exit_request")
  else (false, "")

/-! ### Reachability by recording turns (used to state C1) -/

/-- Conversation states reachable from a fresh manager by recording turns for
roster members (arbitrary content, tone, action and target annotations). -/
inductive ReachableConv (chars : List String) : ConvState → Prop
  | init : ReachableConv chars (initConv chars)
  | step (s : ConvState) (speaker content : String) (action tone target : Option String) :
      ReachableConv chars s → speaker ∈ chars →
      ReachableConv chars (add_turn s speaker content action tone target)

/-! ## Relationship model: `relationships.py` -/

/-- Embedding of the `RelationshipStatus` enum. -/
inductive RelationshipStatus where
  | unknown
  | known
  | forgotten
deriving Repr, DecidableEq

/-- Embedding of the `Relationship` dataclass. Scores are rationals: the
Python fields start as ints and become floats after decay (`0.1 * days`). -/
structure Relationship where
  from_char : String
  to_char : String
  status : RelationshipStatus := .unknown
  trust : Option ℚ := none
  affection : Option ℚ := none
  label : Option String := none
  last_interaction : Option String := none
  historical_events : List String := []
  gossip_knowledge : List String := []
deriving Repr, DecidableEq

namespace Relationship

/-- Embedding of `Relationship.derive_label`: the priority-ordered lookup
table from trust and affection. -/
def derive_label (r : Relationship) : String :=
  match r.trust, r.affection with
  | some t, some a =>
      if 8 ≤ t ∧ 8 ≤ a then "beloved friend"
      else if 7 ≤ t ∧ 7 ≤ a then "trusted ally"
      else if 7 ≤ t ∧ a ≤ 3 then "reliable stranger"
      else if t ≤ 3 ∧ 7 ≤ a then "charming liar"
      else if t ≤ 3 ∧ a ≤ 3 then "dangerous enemy"
      else if 6 ≤ t ∧ 4 ≤ a ∧ a ≤ 6 then "cautious ally"
      else if 4 ≤ t ∧ t ≤ 6 ∧ 7 ≤ a then "likeable acquaintance"
      else "complicated person"
  | _, _ => "unknown person"

/-- Embedding of `Relationship.update_scores`: clamp each present score into
`[0, 10]` after adding the delta, then recompute the label. -/
def update_scores (r : Relationship) (trust_delta affection_delta : ℚ) : Relationship :=
  let r1 :=
    match r.trust with
    | some t => { r with trust := some (max 0 (min 10 (t + trust_delta))) }
    | none => r
  let r2 :=
    match r1.affection with
    | some a => { r1 with affection := some (max 0 (min 10 (a + affection_delta))) }
    | none => r1
  { r2 with label := some r2.derive_label }

/-- Embedding of `Relationship.add_memory`: append, keep only the last 5. -/
def add_memory (r : Relationship) (memory : String) : Relationship :=
  let h := r.historical_events ++ [memory]
  { r with historical_events := if 5 < h.length then h.tail else h }

/-- Embedding of `Relationship.establish_first_meeting`. -/
def establish_first_meeting (r : Relationship) (initial_trust initial_affection : ℚ) :
    Relationship :=
  let r1 := { r with
    status := RelationshipStatus.known
    trust := some initial_trust
    affection := some initial_affection }
  { r1 with label := some r1.derive_label }

end Relationship

/-- One decayed score: move toward 5 by `rate`, clamped so it cannot cross. -/
def decayScore (x rate : ℚ) : ℚ :=
  if 5 < x then max 5 (x - rate)
  else if x < 5 then min 5 (x + rate)
  else x

/-- Embedding of the per-relationship body of `decay_relationships`: decay the
scores of a `known` relationship toward neutral, recompute the label, and mark
history-less relationships `forgotten` when this call's `days_passed >= 10`. -/
def decayRel (days : Nat) (r : Relationship) : Relationship :=
  if r.status = RelationshipStatus.known then
    let rate : ℚ := (1 / 10) * days
    let r1 := { r with
      trust := r.trust.map (fun t => decayScore t rate)
      affection := r.affection.map (fun a => decayScore a rate) }
    let r2 := { r1 with label := some r1.derive_label }
    if 10 ≤ days ∧ r2.historical_events = [] then
      { r2 with status := RelationshipStatus.forgotten }
    else r2
  else r

/-- Embedding of the dict key `f"{from_char}->{to_char}"`. -/
def relKey (from_char to_char : String) : String :=
  from_char ++ "->" ++ to_char

/-- Embedding of `RelationshipMatrix`: the characters and the keyed dict of
directed relationships, as an association list. -/
structure RelationshipMatrix where
  characters : List String
  relationships : List (String × Relationship)
deriving Repr, DecidableEq

namespace RelationshipMatrix

/-- Embedding of `RelationshipMatrix.__init__` plus `_initialize_relationships`. -/
def mk0 (chars : List String) : RelationshipMatrix :=
  { characters := chars
    relationships := chars.flatMap fun f =>
      (chars.filter (fun t => decide (t ≠ f))).map fun t =>
        (relKey f t, ({ from_char := f, to_char := t } : Relationship)) }

/-- Embedding of `get_relationship`. -/
def get_relationship (m : RelationshipMatrix) (from_char to_char : String) :
    Option Relationship :=
  (m.relationships.find? (fun p => decide (p.1 = relKey from_char to_char))).map Prod.snd

/-- Update the relationship stored under `key` in place (dict assignment to an
existing key). -/
def updateRel (m : RelationshipMatrix) (key : String) (f : Relationship → Relationship) :
    RelationshipMatrix :=
  { m with relationships := m.relationships.map fun p =>
      if p.1 = key then (p.1, f p.2) else p }

/-- Embedding of `RelationshipMatrix.establish_first_meeting`: both directions,
each only when present in the matrix. -/
def establish_first_meeting (m : RelationshipMatrix) (char1 char2 : String)
    (t12 a12 t21 a21 : ℚ) : RelationshipMatrix :=
  let m1 :=
    match m.get_relationship char1 char2 with
    | some _ => m.updateRel (relKey char1 char2)
        (fun r => r.establish_first_meeting t12 a12)
    | none => m
  match m1.get_relationship char2 char1 with
  | some _ => m1.updateRel (relKey char2 char1)
      (fun r => r.establish_first_meeting t21 a21)
  | none => m1

/-- Embedding of `RelationshipMatrix.update_relationship`: only a present,
`known` relationship is touched; scores are updated and a non-empty memory is
appended and becomes the last interaction. -/
def update_relationship (m : RelationshipMatrix) (from_char to_char : String)
    (trust_delta affection_delta : ℚ) (memory : Option String) : RelationshipMatrix :=
  match m.get_relationship from_char to_char with
  | some rel =>
      if rel.status = RelationshipStatus.known then
        m.updateRel (relKey from_char to_char) fun r =>
          let r1 := r.update_scores trust_delta affection_delta
          match memory with
          | some mem =>
              if mem ≠ "" then
                { r1.add_memory mem with last_interaction := some mem }
              else r1
          | none => r1
      else m
  | none => m

/-- Embedding of `decay_relationships`: every stored relationship is decayed
with this call's `days_passed`. -/
def decay_relationships (m : RelationshipMatrix) (days : Nat) : RelationshipMatrix :=
  { m with relationships := m.relationships.map fun p => (p.1, decayRel days p.2) }

end RelationshipMatrix

/-- Python's `abs` on a rational score difference. -/
def ratAbs (x : ℚ) : ℚ := if x < 0 then -x else x

/-- Python's lexicographic string comparison `a < b`, written out on the
code-point lists (shorter prefixes compare smaller, ties decided by the first
differing code point). -/
def lexLt : List Char → List Char → Bool
  | [], [] => false
  | [], _ :: _ => true
  | _ :: _, [] => false
  | a :: as, b :: bs => if a < b then true else if b < a then false else lexLt as bs

/-- One entry of the list returned by `detect_asymmetries`. -/
structure Asymmetry where
  char1 : String
  char2 : String
  trust12 : ℚ
  affection12 : ℚ
  label12 : Option String
  trust21 : ℚ
  affection21 : ℚ
  label21 : Option String
  trust_gap : ℚ
  affection_gap : ℚ
deriving Repr, DecidableEq

/-- The entry `detect_asymmetries` produces for the ordered pair
`(char1, char2)`: present exactly when `char1 < char2` (Python's lexicographic
string comparison, embedded as `lexLt` on the character lists), both
directions are `known`, and one of the score gaps is at least 3. -/
def asymEntry (m : RelationshipMatrix) (char1 char2 : String) : Option Asymmetry :=
  if lexLt char1.data char2.data then
    match m.get_relationship char1 char2, m.get_relationship char2 char1 with
    | some r1, some r2 =>
        if r1.status = RelationshipStatus.known ∧ r2.status = RelationshipStatus.known then
          match r1.trust, r1.affection, r2.trust, r2.affection with
          | some t1, some a1, some t2, some a2 =>
              if 3 ≤ ratAbs (t1 - t2) ∨ 3 ≤ ratAbs (a1 - a2) then
                some { char1 := char1, char2 := char2
                       trust12 := t1, affection12 := a1, label12 := r1.label
                       trust21 := t2, affection21 := a2, label21 := r2.label
                       trust_gap := ratAbs (t1 - t2), affection_gap := ratAbs (a1 - a2) }
              else none
          | _, _, _, _ => none
        else none
    | _, _ => none
  else none

/-- Embedding of `RelationshipMatrix.detect_asymmetries`: scan every ordered
character pair, keeping the entries `asymEntry` yields. -/
def RelationshipMatrix.detect_asymmetries (m : RelationshipMatrix) : List Asymmetry :=
  m.characters.flatMap fun c1 => m.characters.filterMap fun c2 => asymEntry m c1 c2

/-! ## NPC state, interjection triggers and time advancement:
`npc_manager.py` and `personality.py` -/

/-- Embedding of the `NPCState` dataclass. -/
structure NPCState where
  name : String
  current_complication : Option String := none
  emotional_intensity : ℤ := 5
  wants_to_exit : Bool := false
  last_action : Option String := none
  last_tone : Option String := none
deriving Repr, DecidableEq

/-- Embedding of `PersonalityManager.should_stress_response_trigger`. -/
def should_stress_response_trigger (stress_level : ℤ) : Bool :=
  decide (8 ≤ stress_level)

/-- Python's `str.lower()`, as the character list of the string
(`Char.toLower` agrees with Python's lowercasing on the ASCII keywords and
names involved). -/
def pyLower (s : String) : List Char := s.data.map Char.toLower

/-- Python substring containment `w in s`, on character lists. -/
def containsSub (s w : List Char) : Bool :=
  decide (w <:+: s)

/-- Python truthiness of an `Optional[str]`. -/
def truthyStr (o : Option String) : Bool :=
  match o with
  | some s => decide (s ≠ "")
  | none => false

/-- The value of `get_relationship_context(observer, speaker).get("trust", 0)`
as read by `check_interjection_triggers`: the context dict carries a `trust`
key only when the stored status is not `unknown` (a missing pair or an
unknown status defaults to 0; API-created `known` records always carry
scores, so the `getD` default is never reached there). -/
def relContextTrust (m : RelationshipMatrix) (from_char to_char : String) : ℚ :=
  match m.get_relationship from_char to_char with
  | some r => if r.status ≠ RelationshipStatus.unknown then r.trust.getD 0 else 0
  | none => 0

/-- Embedding of the `NPCManager` fields the verified operations read. -/
structure NPCManager where
  characters : List String
  relationships : RelationshipMatrix
  states : List (String × NPCState)
deriving Repr, DecidableEq

/-- Lookup in the `states` dict. -/
def NPCManager.getState (mgr : NPCManager) (character : String) : Option NPCState :=
  (mgr.states.find? (fun p => decide (p.1 = character))).map Prod.snd

/-- Result record of `check_interjection_triggers`. -/
structure InterjectionResult where
  should_interject : Bool
  triggers : List String
  primary_reason : Option String
  emotional_intensity : ℤ
deriving Repr, DecidableEq

/-- Embedding of `NPCManager.check_interjection_triggers`; `none` models the
`KeyError` on an observer missing from `states`. -/
def check_interjection_triggers (mgr : NPCManager) (observer speaker statement tone : String) :
    Option InterjectionResult :=
  match mgr.getState observer with
  | none => none
  | some st =>
      let speakerTrust := relContextTrust mgr.relationships observer speaker
      let trig1 : List String :=
        if 8 ≤ st.emotional_intensity then ["emotional_trigger"] else []
      let trig2 : List String :=
        if 7 ≤ speakerTrust ∧ (tone = "accusatory" ∨ tone = "hostile") then
          ["relationship_defense"]
        else []
      let stress_keywords : List (List Char) :=
        ["liar".data, "thief".data, "betrayer".data, pyLower observer]
      let trig3 : List String :=
        if (stress_keywords.any fun w => containsSub (pyLower statement) w) &&
            should_stress_response_trigger st.emotional_intensity then
          ["stress_response"]
        else []
      let trig4 : List String :=
        if truthyStr st.current_complication &&
            (containsSub (pyLower statement) "never".data ||
              containsSub (pyLower statement) "didn\x27t".data) then
          ["information_correction"]
        else []
      let triggers := trig1 ++ trig2 ++ trig3 ++ trig4
      some { should_interject := decide (0 < triggers.length)
             triggers := triggers
             primary_reason := triggers.head?
             emotional_intensity := st.emotional_intensity }

/-- Embedding of `NPCManager.advance_time`: decay the relationships with
`days`, then cool every NPC's emotional intensity down by 1 with floor 1
(once per call; `days` is not consulted here). -/
def advance_time (mgr : NPCManager) (days : Nat) : NPCManager :=
  { mgr with
    relationships := mgr.relationships.decay_relationships days
    states := mgr.states.map fun p =>
      (p.1, { p.2 with emotional_intensity := max 1 (p.2.emotional_intensity - 1) }) }

/-! ## Concrete inputs used by the scenario parts of the claims -/

/-- Scenario for C2: four agents, round 5, three exit requests recorded. -/
def sC2 : ConvState :=
  (request_exit (request_exit (request_exit
    { initConv ["A", "B", "C", "D"] with currentRound := 5 } "A").1 "B").1 "C").1

/-- Scenario for C10: a pending priority override at a round boundary. -/
def sC10 : ConvState := { initConv ["a", "b"] with nextSpeakerOverride := some "b" }

/-- Two-character matrix after a neutral first meeting (used by C4, C5, C8). -/
def mC8 : RelationshipMatrix :=
  (RelationshipMatrix.mk0 ["A", "B"]).establish_first_meeting "A" "B" 5 5 5 5

/-- The record `mC8` stores for the pair A to B. -/
def rC8 : Relationship :=
  { from_char := "A", to_char := "B", status := RelationshipStatus.known,
    trust := some 5, affection := some 5, label := some "complicated person" }

/-- Scenario for C6: asymmetric first meeting. -/
def mC6 : RelationshipMatrix :=
  (RelationshipMatrix.mk0 ["A", "B"]).establish_first_meeting "A" "B" 8 8 2 2

/-- The single asymmetry entry expected from `mC6`. -/
def asymC6 : Asymmetry :=
  { char1 := "A", char2 := "B", trust12 := 8, affection12 := 8,
    label12 := some "beloved friend", trust21 := 2, affection21 := 2,
    label21 := some "dangerous enemy", trust_gap := 6, affection_gap := 6 }

/-- Scenario for C7: an observer at emotional intensity 9 who has never met
the speaker (both relationships `unknown`). -/
def stC7 : NPCState := { name := "Obs", emotional_intensity := 9 }

/-- NPC manager for the C7 scenario. -/
def mgrC7 : NPCManager :=
  { characters := ["Obs", "Spk"]
    relationships := RelationshipMatrix.mk0 ["Obs", "Spk"]
    states := [("Obs", stC7), ("Spk", { name := "Spk" })] }

/-- Scenario for C9: one agent at emotional intensity 5. -/
def mgrC9 : NPCManager :=
  { characters := ["A"], relationships := RelationshipMatrix.mk0 ["A"],
    states := [("A", { name := "A", emotional_intensity := 5 })] }

/-- Scores-in-bounds predicate used to state the C4 clamping invariant. -/
def ScoresClamped (r : Relationship) : Prop :=
  (∀ x, r.trust = some x → 0 ≤ x ∧ x ≤ 10) ∧
  (∀ x, r.affection = some x → 0 ≤ x ∧ x ≤ 10)

/-! ## Helper lemmas on the dict models -/

theorem lookupCount_nil (k : String) : lookupCount [] k = 0 := rfl

theorem lookupCount_cons (p : String × Nat) (d : List (String × Nat)) (k : String) :
    lookupCount (p :: d) k = if p.1 = k then p.2 else lookupCount d k := by
  by_cases h : p.1 = k <;> simp [lookupCount, List.find?, h]

theorem lookupCount_setCount_self (d : List (String × Nat)) (k : String) (v : Nat) :
    lookupCount (setCount d k v) k = v := by
  induction d with
  | nil => simp [setCount, lookupCount_cons]
  | cons p d ih =>
      by_cases h : p.1 = k
      · simp [setCount, h, lookupCount_cons]
      · simp [setCount, h, lookupCount_cons, ih]

theorem lookupCount_setCount_ne (d : List (String × Nat)) (k k' : String) (v : Nat)
    (h : k' ≠ k) : lookupCount (setCount d k v) k' = lookupCount d k' := by
  have hne : k ≠ k' := fun hh => h hh.symm
  induction d with
  | nil =>
      simp only [setCount, lookupCount_cons, lookupCount_nil, if_neg hne]
  | cons p d ih =>
      by_cases hp : p.1 = k
      · simp only [setCount, if_pos hp, lookupCount_cons, if_neg hne,
          if_neg (fun hh => hne (hp.symm.trans hh))]
      · simp only [setCount, hp, if_false, lookupCount_cons, ih]

/-- Finding a key in an association list after mapping the values. -/
theorem assocFind_map {α β : Type} (l : List (String × α)) (g : α → β) (k : String) :
    (((l.map fun p => (p.1, g p.2)).find? fun p => decide (p.1 = k)).map Prod.snd) =
      (((l.find? fun p => decide (p.1 = k)).map Prod.snd).map g) := by
  induction l with
  | nil => simp
  | cons p l ih =>
      by_cases h : p.1 = k
      · simp [List.find?, h]
      · simpa [List.find?, h] using ih

/-- Looking a pair up after `decay_relationships` yields the decayed record. -/
theorem get_relationship_decay (m : RelationshipMatrix) (days : Nat) (f t : String) :
    (m.decay_relationships days).get_relationship f t =
      (m.get_relationship f t).map (decayRel days) := by
  simp only [RelationshipMatrix.decay_relationships, RelationshipMatrix.get_relationship]
  exact assocFind_map m.relationships (decayRel days) (relKey f t)

/-- Finding a key in an association list after a keyed in-place update. -/
theorem assocFind_updateList (l : List (String × Relationship)) (key : String)
    (g : Relationship → Relationship) (k : String) :
    (((l.map fun p => if p.1 = key then (p.1, g p.2) else p).find?
        fun p => decide (p.1 = k)).map Prod.snd) =
      (if k = key then (((l.find? fun p => decide (p.1 = k)).map Prod.snd).map g)
        else ((l.find? fun p => decide (p.1 = k)).map Prod.snd)) := by
  induction l with
  | nil => simp
  | cons p l ih =>
      rw [List.map_cons]
      by_cases hp : p.1 = key
      · rw [if_pos hp]
        by_cases hk : p.1 = k
        · rw [List.find?_cons_of_pos _ (by simpa using hk),
            List.find?_cons_of_pos _ (by simpa using hk), if_pos (hk.symm.trans hp)]
          rfl
        · rw [List.find?_cons_of_neg _ (by simpa using hk),
            List.find?_cons_of_neg _ (by simpa using hk), ih]
      · rw [if_neg hp]
        by_cases hk : p.1 = k
        · rw [List.find?_cons_of_pos _ (by simpa using hk),
            List.find?_cons_of_pos _ (by simpa using hk),
            if_neg (fun hh => hp (hk.trans hh))]
        · rw [List.find?_cons_of_neg _ (by simpa using hk),
            List.find?_cons_of_neg _ (by simpa using hk), ih]

/-- Looking a pair up after `updateRel`. -/
theorem get_relationship_updateRel (m : RelationshipMatrix) (key : String)
    (g : Relationship → Relationship) (f t : String) :
    (m.updateRel key g).get_relationship f t =
      (if relKey f t = key then (m.get_relationship f t).map g
        else m.get_relationship f t) := by
  simp only [RelationshipMatrix.updateRel, RelationshipMatrix.get_relationship]
  exact assocFind_updateList m.relationships key g (relKey f t)

/-! ## Claim C2: conversation termination policy -/

/-- C2: `should_end_conversation` returns `(true, "maximum_rounds_reached")`
whenever the current round is at or past the forced-exit round; otherwise, in
the exit-eligible window 4-7, it returns `(true, "majority_exit_request")`
exactly when the exit-request count reaches `N / 2 + 1`; in every other case
it returns `(false, "")`. With 4 agents and 3 recorded exit requests in round
5 it ends with `"majority_exit_request"` before round 8. -/
theorem C2_should_end_policy (s : ConvState) :
    (s.forcedExitRound ≤ s.currentRound →
      should_end_conversation s = (true, "maximum_rounds_reached")) ∧
    (s.currentRound < s.forcedExitRound → 4 ≤ s.currentRound → s.currentRound ≤ 7 →
      (should_end_conversation s = (true, "majority_exit_request") ↔
        s.characters.length / 2 + 1 ≤ s.exitRequests.length)) ∧
    (s.currentRound < s.forcedExitRound →
      ¬(4 ≤ s.currentRound ∧ s.currentRound ≤ 7 ∧
          s.characters.length / 2 + 1 ≤ s.exitRequests.length) →
      should_end_conversation s = (false, "")) ∧
    should_end_conversation sC2 = (true, "majority_exit_request") ∧
    sC2.currentRound = 5 ∧ sC2.characters.length = 4 ∧
    sC2.exitRequests.length = 3 ∧ sC2.forcedExitRound = 8 := by
  refine ⟨?_, ?_, ?_, by decide, by decide, by decide, by decide, by decide⟩
  · intro h
    simp [should_end_conversation, must_exit_conversation, h]
  · intro h1 h2 h3
    have hm : must_exit_conversation s = false := by
      simp only [must_exit_conversation, decide_eq_false_iff_not]
      omega
    have hc : can_exit_conversation s = true := by
      simp only [can_exit_conversation, decide_eq_true_eq]
      exact ⟨h2, h3⟩
    by_cases hmaj : s.characters.length / 2 + 1 ≤ s.exitRequests.length <;>
      simp [should_end_conversation, hm, hc, hmaj]
  · intro h1 h2
    have hm : must_exit_conversation s = false := by
      simp only [must_exit_conversation, decide_eq_false_iff_not]
      omega
    simp only [should_end_conversation, hm, Bool.false_eq_true, if_false]
    rw [if_neg]
    intro hcontra
    rw [Bool.and_eq_true, can_exit_conversation] at hcontra
    obtain ⟨hwin, hmaj⟩ := hcontra
    rw [decide_eq_true_eq] at hwin
    rw [decide_eq_true_eq] at hmaj
    exact h2 ⟨hwin.1, hwin.2, hmaj⟩

/-- C2 witness: the theorem applied along each of its three branches. -/
theorem C2_should_end_policy_witness :
    should_end_conversation { initConv ["A"] with currentRound := 9 } =
      (true, "maximum_rounds_reached") ∧
    (should_end_conversation sC2 = (true, "majority_exit_request") ↔
      sC2.characters.length / 2 + 1 ≤ sC2.exitRequests.length) ∧
    should_end_conversation { initConv ["A", "B"] with currentRound := 2 } = (false, "") :=
  ⟨(C2_should_end_policy _).1 (by decide),
    (C2_should_end_policy sC2).2.1 (by decide) (by decide) (by decide),
    (C2_should_end_policy _).2.2.1 (by decide) (by decide)⟩

/-! ## Claim C9: time advancement cools emotional intensity -/

/-- C9 counterexample: `advance_time` with `days = 2` leaves an agent who was
at intensity 5 at intensity 4, not at `max 1 (5 - 2) = 3` as the claim
states. -/
theorem C9_counterexample :
    ((advance_time mgrC9 2).getState "A").map NPCState.emotional_intensity = some 4 ∧
    ((advance_time mgrC9 2).getState "A").map NPCState.emotional_intensity ≠
      some (max 1 ((5 : ℤ) - 2)) := by
  constructor
  · decide
  · decide

/-- C9 amended: `advance_time days` decays relationships with `days` but cools
every agent's emotional intensity by exactly 1 per call (floor 1), regardless
of `days`; advancing one day at a time yields the claimed per-day cooldown. -/
theorem C9_cooldown_per_call (mgr : NPCManager) (days : Nat) :
    (advance_time mgr days).relationships = mgr.relationships.decay_relationships days ∧
    (advance_time mgr days).states = mgr.states.map (fun p =>
      (p.1, { p.2 with emotional_intensity := max 1 (p.2.emotional_intensity - 1) })) ∧
    ∀ c st, mgr.getState c = some st →
      (advance_time mgr days).getState c =
        some { st with emotional_intensity := max 1 (st.emotional_intensity - 1) } := by
  refine ⟨rfl, rfl, ?_⟩
  intro c st h
  have hmap := assocFind_map (β := NPCState) mgr.states
    (fun q => { q with emotional_intensity := max 1 (q.emotional_intensity - 1) }) c
  simp only [NPCManager.getState, advance_time] at h ⊢
  rw [hmap, h]
  rfl

/-- C9 witness: one call with `days = 1` cools intensity 5 to 4. -/
theorem C9_cooldown_per_call_witness :
    (advance_time mgrC9 1).getState "A" =
      some { name := "A", emotional_intensity := 4 } := by
  have h := (C9_cooldown_per_call mgrC9 1).2.2 "A"
    { name := "A", emotional_intensity := 5 } (by decide)
  rw [h]
  decide

/-! ## Claim C8: the Forgotten transition -/

/-- C8 counterexample: ten successive `decay(1)` calls on a memory-less Known
relationship (10 cumulative decay-days) leave its status `known`, not
`forgotten`. -/
theorem C8_counterexample :
    (((fun m => RelationshipMatrix.decay_relationships m 1)^[10] mC8).get_relationship
        "A" "B").map Relationship.status = some RelationshipStatus.known ∧
    some RelationshipStatus.known ≠ some RelationshipStatus.forgotten := by
  constructor
  · decide
  · decide

/-- C8 amended: a Known relationship turns Forgotten exactly in a single decay
call whose own `days_passed` is at least 10 while its history is empty;
per-call days are not accumulated across calls. -/
theorem C8_forgotten_per_call (m : RelationshipMatrix) (days : Nat) (f t : String)
    (r : Relationship) (h : m.get_relationship f t = some r)
    (hk : r.status = RelationshipStatus.known) :
    (m.decay_relationships days).get_relationship f t = some (decayRel days r) ∧
    ((decayRel days r).status = RelationshipStatus.forgotten ↔
      (10 ≤ days ∧ r.historical_events = [])) := by
  refine ⟨by rw [get_relationship_decay, h]; rfl, ?_⟩
  by_cases hc : 10 ≤ days ∧ r.historical_events = [] <;>
    simp [decayRel, hk, hc]

/-- C8 witness: a single `decay(10)` call marks the memory-less pair
Forgotten. -/
theorem C8_forgotten_per_call_witness :
    (mC8.decay_relationships 10).get_relationship "A" "B" = some (decayRel 10 rC8) ∧
    (decayRel 10 rC8).status = RelationshipStatus.forgotten := by
  have h := C8_forgotten_per_call mC8 10 "A" "B" rC8 (by decide) (by decide)
  exact ⟨h.1, h.2.mpr ⟨by norm_num, rfl⟩⟩

/-! ## Claim C6: asymmetric first meeting, labels, asymmetry report -/

/-- C6: after `establishFirstMeeting("A","B", 8,8, 2,2)` the A-to-B label is
"beloved friend", the B-to-A label is "dangerous enemy", and
`detect_asymmetries` reports exactly this one pair with both gaps 6; in
general a fully-Known ordered pair produces an entry iff one of its score
gaps is at least 3. -/
theorem C6_first_meeting_asymmetry :
    ((mC6.get_relationship "A" "B").map Relationship.derive_label =
      some "beloved friend") ∧
    ((mC6.get_relationship "B" "A").map Relationship.derive_label =
      some "dangerous enemy") ∧
    mC6.detect_asymmetries = [asymC6] ∧
    asymC6.trust_gap = 6 ∧ asymC6.affection_gap = 6 ∧
    (∀ (m : RelationshipMatrix) (c1 c2 : String) (r1 r2 : Relationship)
        (t1 a1 t2 a2 : ℚ),
      lexLt c1.data c2.data = true → m.get_relationship c1 c2 = some r1 →
      m.get_relationship c2 c1 = some r2 →
      r1.status = RelationshipStatus.known → r2.status = RelationshipStatus.known →
      r1.trust = some t1 → r1.affection = some a1 →
      r2.trust = some t2 → r2.affection = some a2 →
      ((asymEntry m c1 c2).isSome = true ↔
        (3 ≤ ratAbs (t1 - t2) ∨ 3 ≤ ratAbs (a1 - a2)))) := by
  refine ⟨by decide, by decide, by decide, by decide, by decide, ?_⟩
  intro m c1 c2 r1 r2 t1 a1 t2 a2 hlt h1 h2 hs1 hs2 ht1 ha1 ht2 ha2
  by_cases hgap : 3 ≤ ratAbs (t1 - t2) ∨ 3 ≤ ratAbs (a1 - a2) <;>
    simp [asymEntry, hlt, h1, h2, hs1, hs2, ht1, ha1, ht2, ha2, hgap]

/-- C6 witness: the reporting threshold applied to the scenario matrix. -/
theorem C6_first_meeting_asymmetry_witness :
    (asymEntry mC6 "A" "B").isSome = true ↔
      (3 ≤ ratAbs ((8 : ℚ) - 2) ∨ 3 ≤ ratAbs ((8 : ℚ) - 2)) :=
  C6_first_meeting_asymmetry.2.2.2.2.2 mC6 "A" "B"
    { from_char := "A", to_char := "B", status := RelationshipStatus.known,
      trust := some 8, affection := some 8, label := some "beloved friend" }
    { from_char := "B", to_char := "A", status := RelationshipStatus.known,
      trust := some 2, affection := some 2, label := some "dangerous enemy" }
    8 8 2 2 (by decide) (by decide) (by decide) rfl rfl rfl rfl rfl rfl

/-! ## Claim C4: relationship updates stay clamped -/

theorem update_scores_trust (r : Relationship) (td ad : ℚ) :
    (r.update_scores td ad).trust =
      r.trust.map fun t0 => max 0 (min 10 (t0 + td)) := by
  unfold Relationship.update_scores
  cases htr : r.trust <;> cases haf : r.affection <;> simp [htr, haf]

theorem update_scores_affection (r : Relationship) (td ad : ℚ) :
    (r.update_scores td ad).affection =
      r.affection.map fun a0 => max 0 (min 10 (a0 + ad)) := by
  unfold Relationship.update_scores
  cases htr : r.trust <;> cases haf : r.affection <;> simp [htr, haf]

theorem update_scores_label (r : Relationship) (td ad : ℚ) :
    (r.update_scores td ad).label = some ((r.update_scores td ad).derive_label) :=
  rfl

theorem clamp_bounds (v : ℚ) : 0 ≤ max 0 (min 10 v) ∧ max 0 (min 10 v) ≤ 10 :=
  ⟨le_max_left _ _, max_le (by norm_num) (min_le_left _ _)⟩

theorem update_scores_clamped (r : Relationship) (td ad : ℚ) :
    ScoresClamped (r.update_scores td ad) := by
  constructor
  · intro x hx
    rw [update_scores_trust] at hx
    cases htr : r.trust with
    | none => rw [htr] at hx; exact absurd hx (by simp)
    | some t0 =>
        rw [htr, Option.map_some'] at hx
        rw [Option.some_inj] at hx
        rw [← hx]
        exact clamp_bounds _
  · intro x hx
    rw [update_scores_affection] at hx
    cases haf : r.affection with
    | none => rw [haf] at hx; exact absurd hx (by simp)
    | some a0 =>
        rw [haf, Option.map_some'] at hx
        rw [Option.some_inj] at hx
        rw [← hx]
        exact clamp_bounds _

theorem add_memory_append (r : Relationship) (mm : String)
    (h : r.historical_events.length ≤ 4) :
    (r.add_memory mm).historical_events = r.historical_events ++ [mm] := by
  show (if 5 < (r.historical_events ++ [mm]).length then (r.historical_events ++ [mm]).tail
    else r.historical_events ++ [mm]) = r.historical_events ++ [mm]
  rw [if_neg]
  simp only [List.length_append, List.length_cons, List.length_nil]
  omega

theorem add_memory_evict (r : Relationship) (mm : String)
    (h : 5 ≤ r.historical_events.length) :
    (r.add_memory mm).historical_events = r.historical_events.tail ++ [mm] := by
  show (if 5 < (r.historical_events ++ [mm]).length then (r.historical_events ++ [mm]).tail
    else r.historical_events ++ [mm]) = r.historical_events.tail ++ [mm]
  rw [if_pos]
  · cases hr : r.historical_events with
    | nil => rw [hr] at h; simp at h
    | cons a as => simp
  · simp only [List.length_append, List.length_cons, List.length_nil]
    omega

theorem add_memory_bound (r : Relationship) (mm : String)
    (h : r.historical_events.length ≤ 5) :
    (r.add_memory mm).historical_events.length ≤ 5 := by
  by_cases h4 : r.historical_events.length ≤ 4
  · rw [add_memory_append r mm h4]
    simp only [List.length_append, List.length_cons, List.length_nil]
    omega
  · have h5 : 5 ≤ r.historical_events.length := by omega
    rw [add_memory_evict r mm h5]
    simp only [List.length_append, List.length_tail, List.length_cons, List.length_nil]
    omega

/-- C4: `update_relationship` is a no-op unless the stored relationship exists
with status Known; when Known, scores are clamped into `[0, 10]` after any
sequence of deltas, the label is recomputed, and a non-empty memory is
appended to the 5-bounded history and becomes the last interaction. -/
theorem C4_update_relationship_rules (m : RelationshipMatrix) (f t : String)
    (td ad : ℚ) (mem : Option String) :
    (m.get_relationship f t = none → m.update_relationship f t td ad mem = m) ∧
    (∀ r : Relationship, m.get_relationship f t = some r →
      r.status ≠ RelationshipStatus.known →
      m.update_relationship f t td ad mem = m) ∧
    (∀ (r : Relationship) (t0 a0 : ℚ), r.trust = some t0 → r.affection = some a0 →
      (r.update_scores td ad).trust = some (max 0 (min 10 (t0 + td))) ∧
      (r.update_scores td ad).affection = some (max 0 (min 10 (a0 + ad))) ∧
      (r.update_scores td ad).label = some ((r.update_scores td ad).derive_label)) ∧
    (∀ (ds : List (ℚ × ℚ)) (r : Relationship),
      ScoresClamped (ds.foldl (fun acc d => acc.update_scores d.1 d.2)
        (r.update_scores td ad))) ∧
    (∀ (r : Relationship) (mm : String), r.historical_events.length ≤ 4 →
      (Relationship.add_memory r mm).historical_events = r.historical_events ++ [mm]) ∧
    (∀ (r : Relationship) (mm : String), 5 ≤ r.historical_events.length →
      (Relationship.add_memory r mm).historical_events =
        r.historical_events.tail ++ [mm]) ∧
    (∀ (r : Relationship) (mm : String), r.historical_events.length ≤ 5 →
      (Relationship.add_memory r mm).historical_events.length ≤ 5) ∧
    (∀ (r : Relationship) (mm : String), mem = some mm → mm ≠ "" →
      m.get_relationship f t = some r →
      r.status = RelationshipStatus.known →
      (m.update_relationship f t td ad mem).get_relationship f t =
        some { (r.update_scores td ad).add_memory mm with
               last_interaction := some mm }) := by
  refine ⟨?_, ?_, ?_, ?_, ?_, ?_, ?_, ?_⟩
  · intro h
    simp [RelationshipMatrix.update_relationship, h]
  · intro r h hst
    simp [RelationshipMatrix.update_relationship, h, hst]
  · intro r t0 a0 ht ha
    refine ⟨?_, ?_, update_scores_label r td ad⟩
    · rw [update_scores_trust, ht, Option.map_some']
    · rw [update_scores_affection, ha, Option.map_some']
  · intro ds r
    have h0 := update_scores_clamped r td ad
    generalize r.update_scores td ad = acc at h0 ⊢
    induction ds generalizing acc with
    | nil => simpa using h0
    | cons d ds ih =>
        rw [List.foldl_cons]
        exact ih _ (update_scores_clamped acc d.1 d.2)
  · exact fun r mm h => add_memory_append r mm h
  · exact fun r mm h => add_memory_evict r mm h
  · exact fun r mm h => add_memory_bound r mm h
  · intro r mm hmem hne hget hst
    subst hmem
    unfold RelationshipMatrix.update_relationship
    simp only [hget]
    rw [if_pos hst, get_relationship_updateRel, if_pos rfl, hget]
    simp [hne]

/-- C4 witness: a missing pair is untouched, the first memory is appended, and
a Known update rewrites the stored record. -/
theorem C4_update_relationship_rules_witness :
    RelationshipMatrix.update_relationship mC8 "A" "C" 3 (-4) none = mC8 ∧
    (rC8.add_memory "met").historical_events = ["met"] ∧
    ((mC8.update_relationship "A" "B" 3 (-4) (some "met")).get_relationship "A" "B" =
      some { (rC8.update_scores 3 (-4)).add_memory "met" with
             last_interaction := some "met" }) := by
  have h1 := C4_update_relationship_rules mC8 "A" "C" 3 (-4) none
  have h2 := C4_update_relationship_rules mC8 "A" "B" 3 (-4) (some "met")
  refine ⟨h1.1 (by decide), ?_,
    h2.2.2.2.2.2.2.2 rC8 "met" rfl (by decide) (by decide) (by decide)⟩
  have h3 := h1.2.2.2.2.1 rC8 "met" (by decide)
  simpa using h3

/-! ## Claim C5: decay moves scores toward neutral and converges -/

theorem decayScore_five (rate : ℚ) : decayScore 5 rate = 5 := by
  unfold decayScore
  norm_num

theorem decayScore_ge_five (x rate : ℚ) (hr : 0 ≤ rate) (hx : 5 ≤ x) :
    5 ≤ decayScore x rate ∧ decayScore x rate ≤ x := by
  unfold decayScore
  split_ifs with h1 h2
  · exact ⟨le_max_left _ _, max_le hx (by linarith)⟩
  · linarith
  · exact ⟨hx, le_refl _⟩

theorem decayScore_le_five (x rate : ℚ) (hr : 0 ≤ rate) (hx : x ≤ 5) :
    x ≤ decayScore x rate ∧ decayScore x rate ≤ 5 := by
  unfold decayScore
  split_ifs with h1 h2
  · linarith
  · exact ⟨le_min hx (by linarith), min_le_left _ _⟩
  · exact ⟨le_refl _, hx⟩

theorem decayScore_near (x rate : ℚ) (h : |x - 5| ≤ rate) : decayScore x rate = 5 := by
  unfold decayScore
  split_ifs with h1 h2
  · have h2 := (abs_le.mp h).2
    exact max_eq_left (by linarith)
  · have h3 := (abs_le.mp h).1
    exact min_eq_left (by linarith)
  · linarith

theorem decayScore_progress (x rate : ℚ) (hr : 0 ≤ rate) (h : rate ≤ |x - 5|) :
    |decayScore x rate - 5| = |x - 5| - rate := by
  unfold decayScore
  split_ifs with h1 h2
  · have hx5 : |x - 5| = x - 5 := abs_of_pos (by linarith)
    rw [hx5] at h ⊢
    rw [max_eq_right (by linarith), abs_of_nonneg (by linarith)]
    ring
  · have hx5 : |x - 5| = 5 - x := by
      rw [abs_of_neg (by linarith)]
      ring
    rw [hx5] at h ⊢
    rw [min_eq_right (by linarith), abs_of_nonpos (by linarith)]
    ring
  · have hx : x = 5 := by linarith
    subst hx
    have h0 : rate = 0 := le_antisymm (by simpa using h) hr
    simp [h0]

theorem decayScore_iterate_ge (rate : ℚ) (hr : 0 ≤ rate) :
    ∀ (n : ℕ) (x : ℚ), 5 ≤ x → 5 ≤ (fun y => decayScore y rate)^[n] x := by
  intro n
  induction n with
  | zero => intro x hx; simpa using hx
  | succ n ih =>
      intro x hx
      rw [Function.iterate_succ_apply]
      exact ih _ (decayScore_ge_five x rate hr hx).1

theorem decayScore_iterate_le (rate : ℚ) (hr : 0 ≤ rate) :
    ∀ (n : ℕ) (x : ℚ), x ≤ 5 → (fun y => decayScore y rate)^[n] x ≤ 5 := by
  intro n
  induction n with
  | zero => intro x hx; simpa using hx
  | succ n ih =>
      intro x hx
      rw [Function.iterate_succ_apply]
      exact ih _ (decayScore_le_five x rate hr hx).2

theorem decayScore_iterate_reaches (rate : ℚ) (hr : 0 ≤ rate) :
    ∀ (n : ℕ) (x : ℚ), |x - 5| ≤ n * rate → (fun y => decayScore y rate)^[n] x = 5 := by
  intro n
  induction n with
  | zero =>
      intro x hx
      simp only [Nat.cast_zero, zero_mul] at hx
      have hx0 : |x - 5| = 0 := le_antisymm hx (abs_nonneg _)
      have : x - 5 = 0 := abs_eq_zero.mp hx0
      have hx5 : x = 5 := by linarith
      simp [hx5]
  | succ n ih =>
      intro x hx
      rw [Function.iterate_succ_apply]
      by_cases hnear : |x - 5| ≤ rate
      · rw [decayScore_near x rate hnear]
        exact @Function.iterate_fixed ℚ (fun y => decayScore y rate) 5
          (decayScore_five rate) n
      · push_neg at hnear
        apply ih
        rw [decayScore_progress x rate hr (le_of_lt hnear)]
        have hcast : ((n + 1 : ℕ) : ℚ) * rate = (n : ℚ) * rate + rate := by
          push_cast
          ring
        rw [hcast] at hx
        linarith

/-- The trust stored by `decayRel` is the decayed trust. -/
theorem decayRel_trust (days : Nat) (r : Relationship)
    (hk : r.status = RelationshipStatus.known) :
    (decayRel days r).trust =
      r.trust.map fun x => decayScore x ((1 / 10 : ℚ) * days) := by
  unfold decayRel
  rw [if_pos hk]
  dsimp only
  split <;> rfl

/-- The affection stored by `decayRel` is the decayed affection. -/
theorem decayRel_affection (days : Nat) (r : Relationship)
    (hk : r.status = RelationshipStatus.known) :
    (decayRel days r).affection =
      r.affection.map fun x => decayScore x ((1 / 10 : ℚ) * days) := by
  unfold decayRel
  rw [if_pos hk]
  dsimp only
  split <;> rfl

/-- C5: `decay_relationships days` replaces each Known relationship's scores
with `decayScore` at rate `0.1 * days`; a decayed score never crosses
neutral 5, a score within the decay amount of 5 lands exactly on 5, and
repeated decay calls converge to exactly 5 without oscillating past it. -/
theorem C5_decay_toward_neutral (m : RelationshipMatrix) (days : Nat)
    (hd : 1 ≤ days) (f t : String) (r : Relationship)
    (h : m.get_relationship f t = some r)
    (hk : r.status = RelationshipStatus.known) :
    ((m.decay_relationships days).get_relationship f t = some (decayRel days r)) ∧
    ((decayRel days r).trust =
      r.trust.map fun x => decayScore x ((1 / 10 : ℚ) * days)) ∧
    ((decayRel days r).affection =
      r.affection.map fun x => decayScore x ((1 / 10 : ℚ) * days)) ∧
    (∀ x : ℚ,
      (5 < x → decayScore x ((1 / 10 : ℚ) * days) = max 5 (x - (1 / 10 : ℚ) * days)) ∧
      (x < 5 → decayScore x ((1 / 10 : ℚ) * days) = min 5 (x + (1 / 10 : ℚ) * days)) ∧
      (5 ≤ x → 5 ≤ decayScore x ((1 / 10 : ℚ) * days)) ∧
      (x ≤ 5 → decayScore x ((1 / 10 : ℚ) * days) ≤ 5) ∧
      (|x - 5| ≤ (1 / 10 : ℚ) * days → decayScore x ((1 / 10 : ℚ) * days) = 5) ∧
      (∀ n, 5 ≤ x → 5 ≤ (fun y => decayScore y ((1 / 10 : ℚ) * days))^[n] x) ∧
      (∀ n, x ≤ 5 → (fun y => decayScore y ((1 / 10 : ℚ) * days))^[n] x ≤ 5) ∧
      (∃ n, (fun y => decayScore y ((1 / 10 : ℚ) * days))^[n] x = 5)) := by
  have hr : (0 : ℚ) ≤ (1 / 10 : ℚ) * days := by positivity
  have hrpos : (0 : ℚ) < (1 / 10 : ℚ) * days := by
    have : (1 : ℚ) ≤ (days : ℚ) := by exact_mod_cast hd
    nlinarith
  refine ⟨by rw [get_relationship_decay, h]; rfl,
    decayRel_trust days r hk, decayRel_affection days r hk, ?_⟩
  intro x
  refine ⟨?_, ?_, fun hx => (decayScore_ge_five x _ hr hx).1,
    fun hx => (decayScore_le_five x _ hr hx).2,
    fun hx => decayScore_near x _ hx,
    fun n hx => decayScore_iterate_ge _ hr n x hx,
    fun n hx => decayScore_iterate_le _ hr n x hx, ?_⟩
  · intro h1
    unfold decayScore
    rw [if_pos h1]
  · intro h2
    unfold decayScore
    rw [if_neg (by linarith), if_pos h2]
  · obtain ⟨n, hn⟩ := exists_nat_ge (|x - 5| / ((1 / 10 : ℚ) * days))
    refine ⟨n, decayScore_iterate_reaches _ hr n x ?_⟩
    rw [div_le_iff₀ hrpos] at hn
    linarith

/-- C5 witness: the theorem at the neutral two-character matrix, one day. -/
theorem C5_decay_toward_neutral_witness :
    ((mC8.decay_relationships 1).get_relationship "A" "B" = some (decayRel 1 rC8)) ∧
    decayScore 7 ((1 / 10 : ℚ) * (1 : Nat)) = max 5 (7 - (1 / 10 : ℚ) * (1 : Nat)) ∧
    (∃ n, (fun y => decayScore y ((1 / 10 : ℚ) * (1 : Nat)))^[n] 7 = 5) := by
  have h := C5_decay_toward_neutral mC8 1 (by norm_num) "A" "B" rC8
    (by decide) (by decide)
  exact ⟨h.1, (h.2.2.2 7).1 (by norm_num), (h.2.2.2 7).2.2.2.2.2.2.2⟩

/-! ## Claim C7: interjection triggers -/

/-- C7: the evaluation fires iff one of the four triggers holds, the primary
reason is the first firing trigger in the fixed order, and the scenario of an
observer at intensity 9 hearing a neutral statement from a stranger fires
with reason "emotional_trigger". -/
theorem C7_interjection_triggers (mgr : NPCManager)
    (observer speaker statement tone : String) (st : NPCState)
    (h : mgr.getState observer = some st) :
    (∃ res, check_interjection_triggers mgr observer speaker statement tone = some res ∧
      ((res.should_interject = true ↔
        ((8 ≤ st.emotional_intensity) ∨
          (7 ≤ relContextTrust mgr.relationships observer speaker ∧
            (tone = "accusatory" ∨ tone = "hostile")) ∨
          (((["liar".data, "thief".data, "betrayer".data, pyLower observer].any fun w =>
              containsSub (pyLower statement) w) = true) ∧
            should_stress_response_trigger st.emotional_intensity = true) ∨
          (truthyStr st.current_complication = true ∧
            (containsSub (pyLower statement) "never".data = true ∨
              containsSub (pyLower statement) "didn\x27t".data = true)))) ∧
      (8 ≤ st.emotional_intensity → res.primary_reason = some "emotional_trigger") ∧
      (¬(8 ≤ st.emotional_intensity) →
        (7 ≤ relContextTrust mgr.relationships observer speaker ∧
          (tone = "accusatory" ∨ tone = "hostile")) →
        res.primary_reason = some "relationship_defense") ∧
      (¬(8 ≤ st.emotional_intensity) →
        ¬(7 ≤ relContextTrust mgr.relationships observer speaker ∧
          (tone = "accusatory" ∨ tone = "hostile")) →
        ((["liar".data, "thief".data, "betrayer".data, pyLower observer].any fun w =>
            containsSub (pyLower statement) w) = true ∧
          should_stress_response_trigger st.emotional_intensity = true) →
        res.primary_reason = some "stress_response") ∧
      (¬(8 ≤ st.emotional_intensity) →
        ¬(7 ≤ relContextTrust mgr.relationships observer speaker ∧
          (tone = "accusatory" ∨ tone = "hostile")) →
        ¬((["liar".data, "thief".data, "betrayer".data, pyLower observer].any fun w =>
            containsSub (pyLower statement) w) = true ∧
          should_stress_response_trigger st.emotional_intensity = true) →
        (truthyStr st.current_complication = true ∧
          (containsSub (pyLower statement) "never".data = true ∨
            containsSub (pyLower statement) "didn\x27t".data = true)) →
        res.primary_reason = some "information_correction"))) ∧
    check_interjection_triggers mgrC7 "Obs" "Spk" "nice weather today" "neutral" =
      some { should_interject := true, triggers := ["emotional_trigger"],
             primary_reason := some "emotional_trigger", emotional_intensity := 9 } := by
  refine ⟨?_, by decide⟩
  unfold check_interjection_triggers
  rw [h]
  refine ⟨_, rfl, ?_⟩
  by_cases c1 : 8 ≤ st.emotional_intensity <;>
    by_cases c2 : 7 ≤ relContextTrust mgr.relationships observer speaker ∧
      (tone = "accusatory" ∨ tone = "hostile") <;>
    by_cases c3 : ((["liar".data, "thief".data, "betrayer".data, pyLower observer].any
        fun w => containsSub (pyLower statement) w) &&
      should_stress_response_trigger st.emotional_intensity) = true <;>
    by_cases c4 : (truthyStr st.current_complication &&
        (containsSub (pyLower statement) "never".data ||
          containsSub (pyLower statement) "didn\x27t".data)) = true <;>
    simp [c1, c2, c3, c4, Bool.and_eq_true, Bool.or_eq_true,
      should_stress_response_trigger, decide_eq_true_eq] <;>
    simp_all [Bool.and_eq_true, Bool.or_eq_true, should_stress_response_trigger,
      decide_eq_true_eq]

/-- C7 witness: the theorem instantiated at the stranger scenario. -/
theorem C7_interjection_triggers_witness :
    ∃ res, check_interjection_triggers mgrC7 "Obs" "Spk" "nice weather today"
        "neutral" = some res ∧
      res.should_interject = true ∧ res.primary_reason = some "emotional_trigger" := by
  obtain ⟨⟨res, hres, hiff, hp1, -, -, -⟩, -⟩ :=
    C7_interjection_triggers mgrC7 "Obs" "Spk" "nice weather today" "neutral" stC7 rfl
  refine ⟨res, hres, ?_, hp1 (by decide)⟩
  exact hiff.mpr (Or.inl (by decide))

/-! ## Claim C10: what a round boundary resets and what it preserves -/

theorem snsft_exitRequests (s : ConvState) (t cur : String) :
    (set_next_speaker_from_target s t cur).exitRequests = s.exitRequests := by
  unfold set_next_speaker_from_target
  split
  · split <;> rfl
  · rfl

theorem add_turn_exitRequests (s : ConvState) (speaker content : String)
    (action tone target : Option String) :
    (add_turn s speaker content action tone target).exitRequests = s.exitRequests := by
  unfold add_turn start_new_round set_next_speaker_from_target
  dsimp only
  repeat' split
  all_goals rfl

/-- C10: `start_new_round` resets exactly the per-round trackers and
recomputes the energy from the bumped round; the turn history, global turn
counter, exit requests, priority override, rotation index, roster and
forced-exit round all survive, so a pending target is returned first in the
new round, and recording turns never touches the exit requests. -/
theorem C10_round_boundary_frame (s : ConvState) :
    (start_new_round s).currentRound = s.currentRound + 1 ∧
    (start_new_round s).speakersThisRound = [] ∧
    (start_new_round s).turnsThisRound = [] ∧
    (start_new_round s).interjectionsThisRound = [] ∧
    (start_new_round s).conversationEnergy = energyFor (s.currentRound + 1) ∧
    (start_new_round s).turnsTaken = s.turnsTaken ∧
    (start_new_round s).currentTurn = s.currentTurn ∧
    (start_new_round s).exitRequests = s.exitRequests ∧
    (start_new_round s).nextSpeakerOverride = s.nextSpeakerOverride ∧
    (start_new_round s).speakerIndex = s.speakerIndex ∧
    (start_new_round s).characters = s.characters ∧
    (start_new_round s).forcedExitRound = s.forcedExitRound ∧
    (∀ t, s.nextSpeakerOverride = some t →
      (get_next_speaker (start_new_round s)).1 = t) ∧
    (∀ speaker content action tone target,
      (add_turn s speaker content action tone target).exitRequests =
        s.exitRequests) := by
  refine ⟨rfl, rfl, rfl, rfl, rfl, rfl, rfl, rfl, rfl, rfl, rfl, rfl, ?_, ?_⟩
  · intro t ht
    simp [get_next_speaker, start_new_round, ht]
  · intro speaker content action tone target
    exact add_turn_exitRequests s speaker content action tone target

/-- C10 witness: a pending override survives the boundary and is the first
speaker of the new round; recording a turn leaves exit requests alone. -/
theorem C10_round_boundary_frame_witness :
    (get_next_speaker (start_new_round sC10)).1 = "b" ∧
    (add_turn sC10 "a" "hello" none none none).exitRequests = sC10.exitRequests := by
  obtain ⟨-, -, -, -, -, -, -, -, -, -, -, -, hov, hreq⟩ := C10_round_boundary_frame sC10
  exact ⟨hov "b" rfl, hreq "a" "hello" none none none⟩

/-! ## Claim C3: a capped target never changes the schedule -/

theorem snsft_capped (s : ConvState) (t cur : String)
    (h : 2 ≤ lookupCount s.turnsThisRound t) :
    set_next_speaker_from_target s t cur = s := by
  unfold set_next_speaker_from_target
  by_cases hc : t ≠ "" ∧ t ∈ s.characters ∧ t ≠ cur
  · rw [if_pos hc, if_pos h]
  · rw [if_neg hc]

theorem snsft_self (s : ConvState) (cur : String) :
    set_next_speaker_from_target s cur cur = s := by
  unfold set_next_speaker_from_target
  rw [if_neg]
  intro hcond
  exact hcond.2.2 rfl

theorem get_next_speaker_fst_congr (u v : ConvState)
    (hov : u.nextSpeakerOverride = v.nextSpeakerOverride)
    (hchars : u.characters = v.characters)
    (hidx : u.speakerIndex = v.speakerIndex) :
    (get_next_speaker u).1 = (get_next_speaker v).1 := by
  unfold get_next_speaker
  rw [hov, hchars, hidx]
  cases hv : v.nextSpeakerOverride <;> rfl

/-- Two states that agree on everything the round-completion check and the
rotation read (only the recorded turn list may differ) behave identically
through the end-of-`add_turn` advance step. -/
theorem roundStep_congr (u v : ConvState)
    (hchars : u.characters = v.characters)
    (hround : u.currentRound = v.currentRound)
    (hcnt : u.turnsThisRound = v.turnsThisRound)
    (hspk : u.speakersThisRound = v.speakersThisRound)
    (hidx : u.speakerIndex = v.speakerIndex)
    (hov : u.nextSpeakerOverride = v.nextSpeakerOverride) :
    (if should_advance_round u then start_new_round u else u).nextSpeakerOverride =
      (if should_advance_round v then start_new_round v else v).nextSpeakerOverride ∧
    (if should_advance_round u then start_new_round u else u).speakerIndex =
      (if should_advance_round v then start_new_round v else v).speakerIndex ∧
    (if should_advance_round u then start_new_round u else u).characters =
      (if should_advance_round v then start_new_round v else v).characters ∧
    (get_next_speaker (if should_advance_round u then start_new_round u else u)).1 =
      (get_next_speaker (if should_advance_round v then start_new_round v else v)).1 ∧
    (if should_advance_round u then start_new_round u else u).turnsThisRound =
      (if should_advance_round v then start_new_round v else v).turnsThisRound ∧
    (if should_advance_round u then start_new_round u else u).speakersThisRound =
      (if should_advance_round v then start_new_round v else v).speakersThisRound ∧
    (if should_advance_round u then start_new_round u else u).currentRound =
      (if should_advance_round v then start_new_round v else v).currentRound := by
  have hadv : should_advance_round u = should_advance_round v := by
    unfold should_advance_round
    rw [hchars, hcnt, hspk]
  by_cases hc : should_advance_round v = true
  · rw [if_pos (hadv.trans hc), if_pos hc]
    refine ⟨by simp [start_new_round, hov], by simp [start_new_round, hidx],
      by simp [start_new_round, hchars], ?_, by simp [start_new_round],
      by simp [start_new_round], by simp [start_new_round, hround]⟩
    exact get_next_speaker_fst_congr _ _ (by simp [start_new_round, hov])
      (by simp [start_new_round, hchars]) (by simp [start_new_round, hidx])
  · have hcu : ¬ (should_advance_round u = true) := fun hh => hc (hadv.symm.trans hh)
    rw [if_neg hcu, if_neg hc]
    exact ⟨hov, hidx, hchars, get_next_speaker_fst_congr u v hov hchars hidx,
      hcnt, hspk, hround⟩

/-- C3: recording a turn whose target has already taken 2 turns this round
sets no override: the scheduler state (override, rotation index, roster,
per-round trackers, round) and the next speaker are exactly those of the same
turn recorded with no target. -/
theorem C3_capped_target_rotation (s : ConvState) (speaker content : String)
    (action tone : Option String) (t : String)
    (h : 2 ≤ lookupCount s.turnsThisRound t) :
    (add_turn s speaker content action tone (some t)).nextSpeakerOverride =
      (add_turn s speaker content action tone none).nextSpeakerOverride ∧
    (add_turn s speaker content action tone (some t)).speakerIndex =
      (add_turn s speaker content action tone none).speakerIndex ∧
    (add_turn s speaker content action tone (some t)).characters =
      (add_turn s speaker content action tone none).characters ∧
    (get_next_speaker (add_turn s speaker content action tone (some t))).1 =
      (get_next_speaker (add_turn s speaker content action tone none)).1 ∧
    (add_turn s speaker content action tone (some t)).turnsThisRound =
      (add_turn s speaker content action tone none).turnsThisRound ∧
    (add_turn s speaker content action tone (some t)).speakersThisRound =
      (add_turn s speaker content action tone none).speakersThisRound ∧
    (add_turn s speaker content action tone (some t)).currentRound =
      (add_turn s speaker content action tone none).currentRound := by
  have hcollapse : ∀ u : ConvState,
      u.turnsThisRound = setCount s.turnsThisRound speaker
        (lookupCount s.turnsThisRound speaker + 1) →
      (if t ≠ "" then set_next_speaker_from_target u t speaker else u) = u := by
    intro u hu
    by_cases ht0 : t = ""
    · simp [ht0]
    · rw [if_pos ht0]
      by_cases ht1 : t = speaker
      · rw [ht1]
        exact snsft_self u speaker
      · refine snsft_capped u t speaker ?_
        rw [hu, lookupCount_setCount_ne _ _ _ _ ht1]
        exact h
  by_cases hmem : speaker ∈ s.speakersThisRound
  · unfold add_turn
    dsimp only
    simp only [hmem, if_true, hcollapse]
    exact roundStep_congr _ _ rfl rfl rfl rfl rfl rfl
  · unfold add_turn
    dsimp only
    simp only [hmem, if_false, hcollapse]
    exact roundStep_congr _ _ rfl rfl rfl rfl rfl rfl

/-- C3 witness: a roster of two where the target "b" is at the cap. -/
theorem C3_capped_target_rotation_witness :
    (add_turn { initConv ["a", "b"] with turnsThisRound := [("b", 2)] }
        "a" "hi" none none (some "b")).nextSpeakerOverride =
      (add_turn { initConv ["a", "b"] with turnsThisRound := [("b", 2)] }
        "a" "hi" none none none).nextSpeakerOverride ∧
    (get_next_speaker (add_turn { initConv ["a", "b"] with
        turnsThisRound := [("b", 2)] } "a" "hi" none none (some "b"))).1 =
      (get_next_speaker (add_turn { initConv ["a", "b"] with
        turnsThisRound := [("b", 2)] } "a" "hi" none none none)).1 := by
  obtain ⟨h1, -, -, h4, -⟩ := C3_capped_target_rotation
    { initConv ["a", "b"] with turnsThisRound := [("b", 2)] }
    "a" "hi" none none "b" (by decide)
  exact ⟨h1, h4⟩

/-! ## Claim C1: when a round advances -/

/-- Invariant of states reachable by recording turns: the roster is fixed,
every speaker recorded this round is a roster member, and membership in the
per-round speaker list coincides with a positive per-round turn count. -/
def ConvInv (chars : List String) (s : ConvState) : Prop :=
  s.characters = chars ∧
  (∀ c, c ∈ s.speakersThisRound → c ∈ chars) ∧
  (∀ c, c ∈ s.speakersThisRound ↔ 1 ≤ lookupCount s.turnsThisRound c)

theorem snsft_preserves (s : ConvState) (t cur : String) :
    (set_next_speaker_from_target s t cur).characters = s.characters ∧
    (set_next_speaker_from_target s t cur).speakersThisRound = s.speakersThisRound ∧
    (set_next_speaker_from_target s t cur).turnsThisRound = s.turnsThisRound := by
  unfold set_next_speaker_from_target
  by_cases h1 : t ≠ "" ∧ t ∈ s.characters ∧ t ≠ cur
  · rw [if_pos h1]
    by_cases h2 : 2 ≤ lookupCount s.turnsThisRound t
    · rw [if_pos h2]
      exact ⟨rfl, rfl, rfl⟩
    · rw [if_neg h2]
      exact ⟨rfl, rfl, rfl⟩
  · rw [if_neg h1]
    exact ⟨rfl, rfl, rfl⟩

/-- After `add_turn` the roster is unchanged and the per-round trackers are
either freshly reset (the round advanced) or exactly the one-speaker update. -/
theorem add_turn_tracking (s : ConvState) (speaker content : String)
    (action tone target : Option String) :
    (add_turn s speaker content action tone target).characters = s.characters ∧
    (((add_turn s speaker content action tone target).speakersThisRound = [] ∧
        (add_turn s speaker content action tone target).turnsThisRound = []) ∨
      ((add_turn s speaker content action tone target).speakersThisRound =
          (if speaker ∈ s.speakersThisRound then s.speakersThisRound
            else s.speakersThisRound ++ [speaker]) ∧
        (add_turn s speaker content action tone target).turnsThisRound =
          setCount s.turnsThisRound speaker
            (lookupCount s.turnsThisRound speaker + 1))) := by
  unfold add_turn
  dsimp only
  by_cases hmem : speaker ∈ s.speakersThisRound <;>
    simp only [hmem, if_true, if_false] <;>
    cases target with
  | none =>
      split
      · exact ⟨rfl, Or.inl ⟨rfl, rfl⟩⟩
      · exact ⟨rfl, Or.inr ⟨rfl, rfl⟩⟩
  | some t =>
      dsimp only
      by_cases ht0 : t ≠ ""
      · rw [if_pos ht0]
        split
        · exact ⟨(snsft_preserves _ _ _).1, Or.inl ⟨rfl, rfl⟩⟩
        · exact ⟨(snsft_preserves _ _ _).1,
            Or.inr ⟨(snsft_preserves _ _ _).2.1, (snsft_preserves _ _ _).2.2⟩⟩
      · rw [if_neg ht0]
        split
        · exact ⟨rfl, Or.inl ⟨rfl, rfl⟩⟩
        · exact ⟨rfl, Or.inr ⟨rfl, rfl⟩⟩

theorem reachable_inv (chars : List String) (s : ConvState)
    (h : ReachableConv chars s) : ConvInv chars s := by
  induction h with
  | init =>
      refine ⟨rfl, ?_, ?_⟩
      · intro c hc
        simp [initConv] at hc
      · intro c
        simp [initConv, lookupCount]
  | step s speaker content action tone target hreach hspeaker ih =>
      obtain ⟨hchars, hsub, hiff⟩ := ih
      obtain ⟨hch, htrack⟩ := add_turn_tracking s speaker content action tone target
      refine ⟨hch.trans hchars, ?_, ?_⟩
      · intro c hc
        rcases htrack with ⟨hspk, -⟩ | ⟨hspk, -⟩
        · rw [hspk] at hc
          simp at hc
        · rw [hspk] at hc
          by_cases hm : speaker ∈ s.speakersThisRound
          · rw [if_pos hm] at hc
            exact hsub c hc
          · rw [if_neg hm] at hc
            rcases List.mem_append.mp hc with hc1 | hc2
            · exact hsub c hc1
            · rw [List.mem_singleton.mp hc2]
              exact hspeaker
      · intro c
        rcases htrack with ⟨hspk, hcnt⟩ | ⟨hspk, hcnt⟩
        · rw [hspk, hcnt]
          simp [lookupCount]
        · rw [hspk, hcnt]
          by_cases hc : c = speaker
          · subst hc
            rw [lookupCount_setCount_self]
            constructor
            · intro _
              omega
            · intro _
              by_cases hm : c ∈ s.speakersThisRound
              · rwa [if_pos hm]
              · rw [if_neg hm]
                simp
          · rw [lookupCount_setCount_ne _ _ _ _ hc]
            have hmm : (c ∈ if speaker ∈ s.speakersThisRound then s.speakersThisRound
                else s.speakersThisRound ++ [speaker]) ↔ c ∈ s.speakersThisRound := by
              by_cases hm : speaker ∈ s.speakersThisRound
              · rw [if_pos hm]
              · rw [if_neg hm]
                simp [hc]
            rw [hmm]
            exact hiff c

/-- C1: in any state reachable by recording turns for roster members (roster
size at least 2), the round advances exactly when every roster agent is at
the 2-turn cap or every roster agent has spoken this round; in particular it
never advances while some agent has zero turns this round and nobody has
reached the cap. -/
theorem C1_round_advance_iff (chars : List String) (_hN : 2 ≤ chars.length)
    (s : ConvState) (hreach : ReachableConv chars s) :
    (should_advance_round s = true ↔
      ((∀ c ∈ chars, 2 ≤ lookupCount s.turnsThisRound c) ∨
        (∀ c ∈ chars, c ∈ s.speakersThisRound))) ∧
    ((∃ c ∈ chars, lookupCount s.turnsThisRound c = 0) →
      (∀ c ∈ chars, lookupCount s.turnsThisRound c < 2) →
      should_advance_round s = false) := by
  obtain ⟨hchars, hsub, hiff⟩ := reachable_inv chars s hreach
  have hmain : should_advance_round s = true ↔
      ((∀ c ∈ chars, 2 ≤ lookupCount s.turnsThisRound c) ∨
        (∀ c ∈ chars, c ∈ s.speakersThisRound)) := by
    unfold should_advance_round
    rw [hchars]
    simp only [Bool.or_eq_true, Bool.and_eq_true, List.all_eq_true, decide_eq_true_eq]
    constructor
    · rintro (h1 | ⟨h2a, h2b⟩)
      · exact Or.inl h1
      · exact Or.inr h2b
    · rintro (h1 | h2)
      · exact Or.inl h1
      · exact Or.inr ⟨fun c hc => hsub c hc, h2⟩
  refine ⟨hmain, ?_⟩
  rintro ⟨c0, hc0, hzero⟩ hlt
  cases hb : should_advance_round s
  · rfl
  · exfalso
    rcases hmain.mp hb with h1 | h2
    · have := h1 c0 hc0
      omega
    · have hm := (hiff c0).mp (h2 c0 hc0)
      omega

/-- C1 witness: the fresh two-member roster does not advance. -/
theorem C1_round_advance_iff_witness :
    should_advance_round (initConv ["x", "y"]) = false :=
  (C1_round_advance_iff ["x", "y"] (by norm_num) (initConv ["x", "y"])
    ReachableConv.init).2 ⟨"x", by decide, rfl⟩ (by decide)

end CitySim
